import Mathlib

/-!
# libsnabbif packet relay: embedding of `rumpcomp_user.c` and `if_virt.c`

The relay state of `src/deps/libsnabbif/rumpcomp_user.c` is embedded as explicit
state passing.

* A `struct virtif_user *` is an address (`Ptr`); `NULL` is `none`.
* The global `viulist` is the list of registered contexts, head first, each
  paired with the address `malloc` returned for it.
* Every critical section (`pthread_mutex_lock` .. `pthread_mutex_unlock`) is
  one atomic step of the model; contention between threads is not modelled.
* `malloc`, `strdup` and `pthread_create` are decided by an explicit
  environment argument of the call.
* `abort()` ends the run: the result `Res.abort` carries the state at that
  moment.
-/

namespace Snabbif

/-- One octet of frame data (`uint8_t`). -/
abbrev Byte := Fin 256

/-- Address of a `struct virtif_user`; `NULL` is `none : Option Ptr`. -/
abbrev Ptr := Nat

/-- A caller's `struct iovec`, given by the `iov_len` readable bytes found at
`iov_base`. -/
structure iovec where
  iov_base : List Byte
deriving DecidableEq, Repr

/-- Field `iov_len` of a caller's `struct iovec`. -/
def iovec.iov_len (v : iovec) : Nat := v.iov_base.length

/-- `struct pktstore`: `pkt_iov.iov_base` is represented by the contents of the
owned buffer it points to, `pkt_iov.iov_len` is the recorded length. The
`TAILQ_ENTRY` links are the list structure of the queue holding it. -/
structure pktstore where
  iov_base : List Byte
  iov_len : Nat
deriving DecidableEq, Repr

/-- `struct virtif_user` without its thread handle and synchronisation objects.
`viu_devstr` is `none` when the `char *` is `NULL`; `viu_virtifsc` is the
address of the interface softc. -/
structure virtif_user where
  viu_pkt_in : List pktstore
  viu_pkt_out : List pktstore
  viu_devstr : Option (List Char)
  viu_virtifsc : Nat
deriving DecidableEq, Repr

/-- Process state: the global `viulist`, head first. -/
structure State where
  viulist : List (Ptr × virtif_user)
deriving DecidableEq, Repr

/-- Read through a context pointer. -/
def load : List (Ptr × virtif_user) → Ptr → Option virtif_user
  | [], _ => none
  | (b, v) :: rest, a => if b = a then some v else load rest a

/-- Write through a context pointer: the object at address `a` becomes `f` of
itself; every other object is untouched. -/
def store : List (Ptr × virtif_user) → Ptr → (virtif_user → virtif_user) →
    List (Ptr × virtif_user)
  | [], _, _ => []
  | (b, v) :: rest, a, f =>
    if b = a then (b, f v) :: rest else (b, v) :: store rest a f

/-- Result of `viu_lookup`: the pointer found, `NULL`, or a memory fault when
`strcmp` is handed a `NULL` `viu_devstr`. -/
inductive Lookup where
  | found (viu : Ptr)
  | notfound
  | fault
deriving DecidableEq, Repr

/-- `viu_lookup`: `LIST_FOREACH` over `viulist`, stopping at the first context
whose `viu_devstr` compares equal to `devstr`. -/
def viu_lookup : List (Ptr × virtif_user) → List Char → Lookup
  | [], _ => Lookup.notfound
  | (a, v) :: rest, devstr =>
    match v.viu_devstr with
    | none => Lookup.fault
    | some d => if devstr = d then Lookup.found a else viu_lookup rest devstr

/-- Outcome of an entry point that may end the process. -/
inductive Res (α : Type) where
  | ok (s : State) (a : α)
  | abort (s : State)
  | fault
deriving DecidableEq, Repr

/-- `memcpy(dst + off, src, n)` on a buffer given by its contents. -/
def memcpy (dst : List Byte) (off : Nat) (src : List Byte) (n : Nat) : List Byte :=
  dst.take off ++ src.take n ++ dst.drop (off + n)

/-- A block returned by `malloc(n)`: `n` bytes of unspecified contents. -/
def malloc_block (junk : Nat → Byte) (n : Nat) : List Byte :=
  (List.range n).map junk

/-- First loop of `VIFHYPER_SEND`: `pktlen += iov[i].iov_len`. The `size_t` sum
is taken in `Nat`: the segments are byte ranges of one address space
(`virtif_start` passes fewer than 32 of them, each with an `int` length), so the
total stays below `2^64`. -/
def send_pktlen : List iovec → Nat → Nat
  | [], pktlen => pktlen
  | v :: rest, pktlen => send_pktlen rest (pktlen + v.iov_len)

/-- Second loop of `VIFHYPER_SEND`: `memcpy` each segment at `pktoff`, then
advance `pktoff`. -/
def send_copy : List iovec → List Byte → Nat → List Byte
  | [], pktdata, _ => pktdata
  | v :: rest, pktdata, pktoff =>
    send_copy rest (memcpy pktdata pktoff v.iov_base v.iov_len) (pktoff + v.iov_len)

/-- Allocation outcomes of one `VIFHYPER_SEND` or `snabbif_push` call:
`pkt` tells whether `malloc(sizeof(*pkt))` succeeded, `pktdata` is `none` when
the data `malloc` returns `NULL` and otherwise the prior contents of the
block. -/
structure AllocEnv where
  pkt : Bool
  pktdata : Option (Nat → Byte)

/-- Both allocations of the call succeed. -/
def AllocEnv.succeeds (env : AllocEnv) : Bool :=
  env.pkt && env.pktdata.isSome

/-- The frame `VIFHYPER_SEND` builds in a block with prior contents `junk`. -/
def send_frame (iov : List iovec) (junk : Nat → Byte) : pktstore :=
  let pktlen := send_pktlen iov 0
  { iov_base := send_copy iov (malloc_block junk pktlen) 0, iov_len := pktlen }

/-- `VIFHYPER_SEND(viu, iov, iovlen)` with `iov` the `iovlen` entries of the
array. -/
def VIFHYPER_SEND (s : State) (viu : Ptr) (iov : List iovec) (env : AllocEnv) : State :=
  if env.pkt then
    match env.pktdata with
    | none => s
    | some junk =>
      let pkt := send_frame iov junk
      { viulist := store s.viulist viu
          (fun v => { v with viu_pkt_out := v.viu_pkt_out ++ [pkt] }) }
  else s

/-- The caller's variables behind the `pktdata` and `pktlen` out-parameters of
`snabbif_pull`. -/
structure PullOut where
  pktdata : List Byte
  pktlen : Nat
deriving DecidableEq, Repr

/-- `snabbif_pull(devstr, &pktdata, &pktlen)`: the `int` returned and the
out-parameters after the call. -/
def snabbif_pull (s : State) (devstr : List Char) (out : PullOut) : Res (Nat × PullOut) :=
  match viu_lookup s.viulist devstr with
  | Lookup.fault => Res.fault
  | Lookup.notfound => Res.abort s
  | Lookup.found viu =>
    match load s.viulist viu with
    | none => Res.fault
    | some v =>
      match v.viu_pkt_out with
      | [] => Res.ok s (0, out)
      | pkt :: rest =>
        Res.ok { viulist := store s.viulist viu (fun w => { w with viu_pkt_out := rest }) }
          (1, { pktdata := pkt.iov_base, pktlen := pkt.iov_len })

/-- `snabbif_push(devstr, pktdata, pktlen)` with `pktdata` the `pktlen` bytes to
copy. -/
def snabbif_push (s : State) (devstr : List Char) (pktdata : List Byte)
    (env : AllocEnv) : Res Unit :=
  match viu_lookup s.viulist devstr with
  | Lookup.fault => Res.fault
  | Lookup.notfound => Res.abort s
  | Lookup.found viu =>
    if env.pkt then
      match env.pktdata with
      | none => Res.ok s ()
      | some junk =>
        let pktlen := pktdata.length
        let pkt : pktstore :=
          { iov_base := memcpy (malloc_block junk pktlen) 0 pktdata pktlen, iov_len := pktlen }
        Res.ok
          { viulist := store s.viulist viu
              (fun v => { v with viu_pkt_in := v.viu_pkt_in ++ [pkt] }) } ()
    else Res.ok s ()

/-- What the relay worker does, in program order. `deliver sc iov iovlen` is the
call `VIF_DELIVERPKT(sc, iov, iovlen)` with the array `iov` shown by the
contents and length of each entry. -/
inductive Event where
  | kthread
  | dequeue (pkt : pktstore)
  | schedule
  | deliver (sc : Nat) (iov : List pktstore) (iovlen : Nat)
  | unschedule
  | free_data (pkt : pktstore)
  | free_pkt (pkt : pktstore)
deriving DecidableEq, Repr

/-- One pass through the body of the `for (;;)` loop of `rcvcontext`. The result
is `none` while `TAILQ_EMPTY(&viu->viu_pkt_in)` keeps the worker inside
`pthread_cond_wait`. -/
def rcvcontext_iter (s : State) (viu : Ptr) : Option (State × List Event) :=
  match load s.viulist viu with
  | none => none
  | some v =>
    match v.viu_pkt_in with
    | [] => none
    | pkt :: rest =>
      some ({ viulist := store s.viulist viu (fun w => { w with viu_pkt_in := rest }) },
        [Event.dequeue pkt, Event.schedule, Event.deliver v.viu_virtifsc [pkt] 1,
         Event.unschedule, Event.free_data pkt, Event.free_pkt pkt])

/-- Up to `n` consecutive passes of the worker loop with no other thread
running; the worker stops early when it has to wait. -/
def rcvcontext_loop : Nat → State → Ptr → State × List Event
  | 0, s, _ => (s, [])
  | n + 1, s, viu =>
    match rcvcontext_iter s viu with
    | none => (s, [])
    | some (s1, ev) =>
      let r := rcvcontext_loop n s1 viu
      (r.1, ev ++ r.2)

/-- `rcvcontext(arg)` run for up to `n` passes of its loop. -/
def rcvcontext (n : Nat) (s : State) (viu : Ptr) : State × List Event :=
  let r := rcvcontext_loop n s viu
  (r.1, Event.kthread :: r.2)

/-- The arguments of the `VIF_DELIVERPKT` calls of a trace, in order. -/
def deliveries : List Event → List (Nat × List pktstore × Nat)
  | [] => []
  | Event.deliver sc iov iovlen :: rest => (sc, iov, iovlen) :: deliveries rest
  | _ :: rest => deliveries rest

/-- Error numbers that reach the callers of this code. The value handed back by
`VIFHYPER_CREATE` is `rumpuser_component_errtrans(rv)`, the rump kernel number
of the same error, so a symbolic error stands for both. -/
inductive Errno where
  | ENAMETOOLONG
  | ENOMEM
  | EAGAIN
  | EINVAL
  | EPERM
  | ENXIO
deriving DecidableEq, Repr

/-- Return value of `pthread_create`: `0` or one of its error numbers. -/
inductive ThreadStart where
  | started
  | EAGAIN
  | EINVAL
  | EPERM
deriving DecidableEq, Repr

/-- The `int` returned by `pthread_create`; `none` is `0`. -/
def ThreadStart.rv : ThreadStart → Option Errno
  | ThreadStart.started => none
  | ThreadStart.EAGAIN => some Errno.EAGAIN
  | ThreadStart.EINVAL => some Errno.EINVAL
  | ThreadStart.EPERM => some Errno.EPERM

/-- Outcomes of the library calls of one `VIFHYPER_CREATE`: `malloc` gives the
address of the new context or `NULL` (with `errno` set to `ENOMEM`),
`pthread_create` its return value, `strdup` tells whether the copy of the name
could be allocated. -/
structure CreateEnv where
  malloc : Option Ptr
  pthread_create : ThreadStart
  strdup : Bool
deriving DecidableEq, Repr

/-- What `VIFHYPER_CREATE` leaves behind: the state, the pointer stored through
`viup`, the block released by `free(viu)` if any, and the value returned
(`none` is `0`). -/
structure CreateResult where
  state : State
  viup : Option Ptr
  freed : Option Ptr
  ret : Option Errno
deriving DecidableEq, Repr

/-- The code at label `out` of `VIFHYPER_CREATE`: when `rv` is non-zero and
`viu` is not `NULL` the context is freed; then `*viup = viu` and `rv` is
returned. -/
def VIFHYPER_CREATE_out (s : State) (viu : Option Ptr) (rv : Option Errno) : CreateResult :=
  { state := s, viup := viu, freed := if rv.isSome then viu else none, ret := rv }

/-- `VIFHYPER_CREATE(devstr, vif_sc, enaddr, viup)`. `VIF_NAME` is the name
prefix of `if_virt.h`; `snprintf` returns the length of the composed name and
the name fits `devwithbase[32]` when that is below 32. -/
def VIFHYPER_CREATE (VIF_NAME : List Char) (s : State) (devstr : List Char) (vif_sc : Nat)
    (_enaddr : List Byte) (env : CreateEnv) : CreateResult :=
  if 32 ≤ VIF_NAME.length + devstr.length then
    VIFHYPER_CREATE_out s none (some Errno.ENAMETOOLONG)
  else
    match env.malloc with
    | none => VIFHYPER_CREATE_out s none (some Errno.ENOMEM)
    | some viu =>
      match env.pthread_create.rv with
      | some e => VIFHYPER_CREATE_out s (some viu) (some e)
      | none =>
        let devwithbase := VIF_NAME ++ devstr
        let obj : virtif_user :=
          { viu_pkt_in := [], viu_pkt_out := [],
            viu_devstr := if env.strdup then some devwithbase else none,
            viu_virtifsc := vif_sc }
        VIFHYPER_CREATE_out { viulist := (viu, obj) :: s.viulist } (some viu) none

/-- The fields of `struct virtif_sc` (`if_virt.c`) this code reads or writes;
`running` is `IFF_RUNNING` in the flags of `sc_ec.ec_if`. -/
structure virtif_sc where
  sc_viu : Option Ptr
  sc_num : Nat
  sc_linkstr : List Char
  running : Bool
deriving DecidableEq, Repr

/-- `virtif_create(ifp)` of `if_virt.c`, with `scp` the address of the softc and
`enaddr` the Ethernet address it made up; `none` is `panic("already created")`. The `ether_ifattach` calls on success do
not touch the fields modelled. -/
def virtif_create (VIF_NAME : List Char) (s : State) (scp : Nat) (sc : virtif_sc)
    (enaddr : List Byte) (env : CreateEnv) : Option (State × virtif_sc × Option Errno) :=
  if sc.sc_viu.isSome then none
  else
    let r := VIFHYPER_CREATE VIF_NAME s sc.sc_linkstr scp enaddr env
    some (r.state, { sc with sc_viu := r.viup }, r.ret)

/-- `virtif_init(ifp)` of `if_virt.c`. -/
def virtif_init (sc : virtif_sc) : virtif_sc × Option Errno :=
  if sc.sc_viu = none then (sc, some Errno.ENXIO)
  else ({ sc with running := true }, none)

/-- A run of `VIFHYPER_SEND` calls on one context, in order. -/
def send_all (s : State) (viu : Ptr) : List (List iovec × AllocEnv) → State
  | [] => s
  | (iov, env) :: rest => send_all (VIFHYPER_SEND s viu iov env) viu rest

/-- A run of `n` `snabbif_pull` calls with the same out-variables: the final
out-variables and, for each call, its return value and the out-variables right
after it. -/
def pull_n (devstr : List Char) : Nat → State → PullOut → Res (PullOut × List (Nat × PullOut))
  | 0, s, out => Res.ok s (out, [])
  | n + 1, s, out =>
    match snabbif_pull s devstr out with
    | Res.ok s1 (r, out1) =>
      match pull_n devstr n s1 out1 with
      | Res.ok s2 (out2, l) => Res.ok s2 (out2, (r, out1) :: l)
      | Res.abort s2 => Res.abort s2
      | Res.fault => Res.fault
    | Res.abort s1 => Res.abort s1
    | Res.fault => Res.fault

/-- A run of `snabbif_push` calls on one name, in order. -/
def push_all (devstr : List Char) : State → List (List Byte × AllocEnv) → Res Unit
  | s, [] => Res.ok s ()
  | s, (pktdata, env) :: rest =>
    match snabbif_push s devstr pktdata env with
    | Res.ok s1 _ => push_all devstr s1 rest
    | Res.abort s1 => Res.abort s1
    | Res.fault => Res.fault

/-- The identifiers of the registered contexts, head first. -/
def identifiers (s : State) : List (Option (List Char)) :=
  s.viulist.map (fun c => c.2.viu_devstr)

/-- Every registered context lives at its own address and has an identifier
string. -/
def State.WellFormed (s : State) : Prop :=
  (s.viulist.map Prod.fst).Nodup ∧ ∀ c ∈ s.viulist, c.2.viu_devstr ≠ none

instance (s : State) : Decidable s.WellFormed := by
  unfold State.WellFormed
  infer_instance

/-- The frame a list of segments stands for, in the words of the
specification: the bytes are the concatenation of the segments in order and the
length is the sum of the segment lengths. -/
def frame_of (iov : List iovec) : pktstore :=
  pktstore.mk (iov.map iovec.iov_base).flatten (iov.map iovec.iov_len).sum

/-- Replace the outbound queue of a context. -/
def set_pkt_out (q : List pktstore) (v : virtif_user) : virtif_user :=
  { v with viu_pkt_out := q }

/-- Replace the inbound queue of a context. -/
def set_pkt_in (q : List pktstore) (v : virtif_user) : virtif_user :=
  { v with viu_pkt_in := q }

/-- A registry holding one idle device named `virt0` at address 4096, attached
to the softc at address 7. -/
def one_device : State :=
  State.mk [(4096, virtif_user.mk [] [] (some ['v', 'i', 'r', 't', '0']) 7)]

/-- Allocations that succeed and hand out zero-filled blocks. -/
def alloc_ok : AllocEnv := AllocEnv.mk true (some (fun _ => 0))

/-- The segments `"ab"`, `""`, `"cde"`. -/
def segs_ab_cde : List iovec :=
  [iovec.mk [97, 98], iovec.mk [], iovec.mk [99, 100, 101]]

/-- The events of the worker passes that deliver the given frames, one after
the other, to the softc `sc`. -/
def worker_events (sc : Nat) : List pktstore → List Event
  | [] => []
  | pkt :: rest =>
    [Event.dequeue pkt, Event.schedule, Event.deliver sc [pkt] 1, Event.unschedule,
     Event.free_data pkt, Event.free_pkt pkt] ++ worker_events sc rest

/-- Some registered context carries the identifier `devstr`. -/
def registered (s : State) (devstr : List Char) : Prop :=
  ∃ c ∈ s.viulist, c.2.viu_devstr = some devstr

instance (s : State) (devstr : List Char) : Decidable (registered s devstr) := by
  unfold registered
  infer_instance

/-- A registry with two devices, `virt0` (address 4096, one frame waiting
inbound) and `virt1` (address 8192, idle). -/
def two_devices : State :=
  State.mk [(8192, virtif_user.mk [] [] (some ['v', 'i', 'r', 't', '1']) 9),
            (4096, virtif_user.mk [pktstore.mk [1, 2, 3] 3] [] (some ['v', 'i', 'r', 't', '0']) 7)]

/-- Allocations in which the data block cannot be had. -/
def alloc_nodata : AllocEnv := AllocEnv.mk true none

/-- The name prefix `"virt"`. -/
def virt : List Char := ['v', 'i', 'r', 't']

/-- The empty registry. -/
def no_device : State := State.mk []

/-- A creation in which `malloc` hands out address `a` and everything
succeeds. -/
def create_ok (a : Ptr) : CreateEnv := CreateEnv.mk (some a) ThreadStart.started true

/-- A creation in which `malloc` and `pthread_create` succeed and `strdup`
returns `NULL`. -/
def create_nostrdup : CreateEnv := CreateEnv.mk (some 4096) ThreadStart.started false

/-- The registry after creating `"virt0"` (address 4096, softc 7) and then
`"virt1"` (address 8192, softc 9) with `strdup` returning `NULL` in the second
creation. -/
def after_strdup_null : State :=
  (VIFHYPER_CREATE virt (VIFHYPER_CREATE virt no_device ['0'] 7 [] (create_ok 4096)).state
    ['1'] 9 [] (CreateEnv.mk (some 8192) ThreadStart.started false)).state

/-- A creation in which `malloc` succeeds and `pthread_create` returns
`EAGAIN`. -/
def create_nothread : CreateEnv := CreateEnv.mk (some 4096) ThreadStart.EAGAIN true

/-- A freshly cloned softc with link string `"0"`, not yet created. -/
def fresh_sc : virtif_sc := virtif_sc.mk none 0 ['0'] false

/-! ## Frame building -/

theorem send_pktlen_eq (iov : List iovec) (acc : Nat) :
    send_pktlen iov acc = acc + (iov.map iovec.iov_len).sum := by
  induction iov generalizing acc with
  | nil => simp [send_pktlen]
  | cons v rest ih => simp [send_pktlen, ih, Nat.add_assoc]

theorem malloc_block_length (junk : Nat → Byte) (n : Nat) :
    (malloc_block junk n).length = n := by
  simp [malloc_block]

theorem memcpy_append (done rest src : List Byte) :
    memcpy (done ++ rest) done.length src src.length = (done ++ src) ++ rest.drop src.length := by
  unfold memcpy
  rw [List.take_left, List.take_length, List.drop_append]

theorem send_copy_eq (iov : List iovec) (done rest : List Byte)
    (h : rest.length = (iov.map iovec.iov_len).sum) :
    send_copy iov (done ++ rest) done.length = done ++ (iov.map iovec.iov_base).flatten := by
  induction iov generalizing done rest with
  | nil =>
    have : rest = [] := List.length_eq_zero.mp (by simpa using h)
    simp [send_copy, this]
  | cons v tail ih =>
    simp only [List.map_cons, List.sum_cons] at h
    have key := ih (done ++ v.iov_base) (rest.drop v.iov_base.length)
      (by simp only [List.length_drop, iovec.iov_len] at h ⊢; omega)
    simp only [send_copy, iovec.iov_len, List.map_cons, List.flatten_cons]
    rw [memcpy_append done rest v.iov_base]
    rw [List.length_append] at key
    rw [key, List.append_assoc]

theorem send_frame_eq (iov : List iovec) (junk : Nat → Byte) :
    send_frame iov junk =
      { iov_base := (iov.map iovec.iov_base).flatten, iov_len := (iov.map iovec.iov_len).sum } := by
  have h := send_copy_eq iov [] (malloc_block junk (send_pktlen iov 0))
    (by rw [malloc_block_length, send_pktlen_eq, Nat.zero_add])
  simp only [List.nil_append, List.length_nil] at h
  simp only [send_frame, h]
  rw [send_pktlen_eq, Nat.zero_add]

theorem push_frame_eq (pktdata : List Byte) (junk : Nat → Byte) :
    memcpy (malloc_block junk pktdata.length) 0 pktdata pktdata.length = pktdata := by
  have h := memcpy_append [] (malloc_block junk pktdata.length) pktdata
  simp only [List.nil_append, List.length_nil] at h
  rw [h, List.drop_eq_nil_of_le (by rw [malloc_block_length]), List.append_nil]

/-! ## Pointers into the registry -/

theorem load_store (l : List (Ptr × virtif_user)) (a : Ptr) (f : virtif_user → virtif_user) :
    load (store l a f) a = (load l a).map f := by
  induction l with
  | nil => rfl
  | cons c rest ih =>
    obtain ⟨b, v⟩ := c
    by_cases hb : b = a
    · simp [load, store, hb]
    · simp [load, store, hb, ih]

theorem load_store_ne (l : List (Ptr × virtif_user)) (a b : Ptr) (f : virtif_user → virtif_user)
    (hab : b ≠ a) : load (store l a f) b = load l b := by
  induction l with
  | nil => rfl
  | cons c rest ih =>
    obtain ⟨x, v⟩ := c
    by_cases hx : x = a
    · subst hx
      simp [load, store, hab.symm]
    · by_cases hxb : x = b
      · subst hxb
        simp [load, store, hx]
      · simp [load, store, hx, hxb, ih]

theorem store_store (l : List (Ptr × virtif_user)) (a : Ptr) (f g : virtif_user → virtif_user) :
    store (store l a f) a g = store l a (fun v => g (f v)) := by
  induction l with
  | nil => rfl
  | cons c rest ih =>
    obtain ⟨b, v⟩ := c
    by_cases hb : b = a
    · simp [store, hb]
    · simp [store, hb, ih]

theorem store_eq_self (l : List (Ptr × virtif_user)) (a : Ptr) (f : virtif_user → virtif_user)
    (h : ∀ v, load l a = some v → f v = v) : store l a f = l := by
  induction l with
  | nil => rfl
  | cons c rest ih =>
    obtain ⟨b, v⟩ := c
    by_cases hb : b = a
    · have := h v (by simp [load, hb])
      simp [store, hb, this]
    · have hrest : ∀ w, load rest a = some w → f w = w := by
        intro w hw
        exact h w (by simp [load, hb, hw])
      simp [store, hb, ih hrest]

theorem viu_lookup_store (l : List (Ptr × virtif_user)) (a : Ptr) (f : virtif_user → virtif_user)
    (hf : ∀ v, (f v).viu_devstr = v.viu_devstr) (devstr : List Char) :
    viu_lookup (store l a f) devstr = viu_lookup l devstr := by
  induction l with
  | nil => rfl
  | cons c rest ih =>
    obtain ⟨b, v⟩ := c
    by_cases hb : b = a
    · simp [store, hb, viu_lookup, hf]
    · simp [store, hb, viu_lookup, ih]

/-! ## Outbound path: `VIFHYPER_SEND` then `snabbif_pull` -/

theorem send_frame_eq_frame_of (iov : List iovec) (junk : Nat → Byte) :
    send_frame iov junk = frame_of iov := by
  rw [send_frame_eq]; rfl

theorem VIFHYPER_SEND_succeeds (s : State) (viu : Ptr) (iov : List iovec) (env : AllocEnv)
    (h : env.succeeds = true) :
    VIFHYPER_SEND s viu iov env =
      State.mk (store s.viulist viu (fun v => set_pkt_out (v.viu_pkt_out ++ [frame_of iov]) v)) := by
  obtain ⟨pkt, pktdata⟩ := env
  cases pkt with
  | false => simp [AllocEnv.succeeds] at h
  | true =>
    cases pktdata with
    | none => simp [AllocEnv.succeeds] at h
    | some junk => simp [VIFHYPER_SEND, send_frame_eq_frame_of, set_pkt_out]

theorem send_all_succeeds (sends : List (List iovec × AllocEnv)) (s : State) (viu : Ptr)
    (h : ∀ e ∈ sends, e.2.succeeds = true) :
    send_all s viu sends =
      State.mk (store s.viulist viu
        (fun v => set_pkt_out (v.viu_pkt_out ++ sends.map (fun e => frame_of e.1)) v)) := by
  induction sends generalizing s with
  | nil =>
    simp only [send_all, List.map_nil, List.append_nil]
    rw [store_eq_self]
    intro v _
    rfl
  | cons e rest ih =>
    obtain ⟨iov, env⟩ := e
    have h1 : env.succeeds = true := h (iov, env) (List.mem_cons_self _ _)
    have h2 : ∀ e ∈ rest, e.2.succeeds = true := fun e he => h e (List.mem_cons_of_mem _ he)
    simp only [send_all]
    rw [ih _ h2, VIFHYPER_SEND_succeeds s viu iov env h1]
    simp only [store_store, List.map_cons, set_pkt_out, List.append_assoc, List.singleton_append]

theorem snabbif_pull_cons (s : State) (devstr : List Char) (out : PullOut) (viu : Ptr)
    (v : virtif_user) (pkt : pktstore) (rest : List pktstore)
    (hl : viu_lookup s.viulist devstr = Lookup.found viu) (hv : load s.viulist viu = some v)
    (hq : v.viu_pkt_out = pkt :: rest) :
    snabbif_pull s devstr out =
      Res.ok (State.mk (store s.viulist viu (set_pkt_out rest)))
        (1, PullOut.mk pkt.iov_base pkt.iov_len) := by
  simp only [snabbif_pull, hl, hv, hq]
  rfl

theorem snabbif_pull_nil (s : State) (devstr : List Char) (out : PullOut) (viu : Ptr)
    (v : virtif_user)
    (hl : viu_lookup s.viulist devstr = Lookup.found viu) (hv : load s.viulist viu = some v)
    (hq : v.viu_pkt_out = []) :
    snabbif_pull s devstr out = Res.ok s (0, out) := by
  simp only [snabbif_pull, hl, hv, hq]

theorem pull_n_frames (devstr : List Char) (viu : Ptr) (frames rest : List pktstore) (s : State)
    (out : PullOut) (v : virtif_user)
    (hl : viu_lookup s.viulist devstr = Lookup.found viu) (hv : load s.viulist viu = some v)
    (hq : v.viu_pkt_out = frames ++ rest) :
    ∃ out1, pull_n devstr frames.length s out =
      Res.ok (State.mk (store s.viulist viu (set_pkt_out rest)))
        (out1, frames.map (fun p => (1, PullOut.mk p.iov_base p.iov_len))) := by
  induction frames generalizing s out v with
  | nil =>
    refine ⟨out, ?_⟩
    simp only [pull_n, List.length_nil, List.map_nil]
    rw [store_eq_self]
    intro w hw
    rw [hv] at hw
    cases hw
    simp only [List.nil_append] at hq
    simp only [set_pkt_out, ← hq]
  | cons p fs ih =>
    have hpull := snabbif_pull_cons s devstr out viu v p (fs ++ rest) hl hv
      (by simpa using hq)
    have hl1 : viu_lookup (store s.viulist viu (set_pkt_out (fs ++ rest))) devstr =
        Lookup.found viu :=
      (viu_lookup_store s.viulist viu (set_pkt_out (fs ++ rest)) (fun _ => rfl) devstr).trans hl
    have hv1 : load (store s.viulist viu (set_pkt_out (fs ++ rest))) viu =
        some (set_pkt_out (fs ++ rest) v) := by
      rw [load_store, hv]; rfl
    obtain ⟨out1, h1⟩ := ih (State.mk (store s.viulist viu (set_pkt_out (fs ++ rest))))
      (PullOut.mk p.iov_base p.iov_len) _ hl1 hv1 rfl
    refine ⟨out1, ?_⟩
    simp only [pull_n, List.length_cons, hpull, h1, List.map_cons, store_store]
    rfl

/-- C3: for every ordered list of segments, the frame `VIFHYPER_SEND` queues on
a device with an empty outbound queue is the only entry of that queue, its bytes
are the concatenation of the segments in order and its length is the sum of the
segment lengths; the following `snabbif_pull` on the device's name returns 1
with exactly these bytes and this length and leaves the state as it was before
the send. -/
theorem VIFHYPER_SEND_pull_frame (s : State) (devstr : List Char) (viu : Ptr) (v : virtif_user)
    (iov : List iovec) (env : AllocEnv) (out : PullOut)
    (hl : viu_lookup s.viulist devstr = Lookup.found viu)
    (hv : load s.viulist viu = some v)
    (hq : v.viu_pkt_out = [])
    (hok : env.succeeds = true) :
    (load (VIFHYPER_SEND s viu iov env).viulist viu).map virtif_user.viu_pkt_out =
        some [pktstore.mk (iov.map iovec.iov_base).flatten (iov.map iovec.iov_len).sum] ∧
      snabbif_pull (VIFHYPER_SEND s viu iov env) devstr out =
        Res.ok s (1, PullOut.mk (iov.map iovec.iov_base).flatten (iov.map iovec.iov_len).sum) := by
  rw [VIFHYPER_SEND_succeeds s viu iov env hok]
  have hv1 : load (store s.viulist viu
      (fun v => set_pkt_out (v.viu_pkt_out ++ [frame_of iov]) v)) viu =
      some (set_pkt_out [frame_of iov] v) := by
    rw [load_store, hv]
    simp [hq]
  refine ⟨?_, ?_⟩
  · simp only [hv1]
    rfl
  · have hl1 : viu_lookup (store s.viulist viu
        (fun v => set_pkt_out (v.viu_pkt_out ++ [frame_of iov]) v)) devstr = Lookup.found viu :=
      (viu_lookup_store s.viulist viu
        (fun v => set_pkt_out (v.viu_pkt_out ++ [frame_of iov]) v) (fun _ => rfl) devstr).trans hl
    rw [snabbif_pull_cons _ devstr out viu _ (frame_of iov) [] hl1 hv1 rfl]
    simp only [store_store]
    rw [store_eq_self]
    · rfl
    · intro w hw
      rw [hv] at hw
      cases hw
      simp only [set_pkt_out, ← hq]

/-- C3 on the specification's examples: segments `"ab"`, `""`, `"cde"` give the
5-byte frame `"abcde"`, and no segments give a 0-byte frame. -/
theorem VIFHYPER_SEND_pull_frame_witness :
    (viu_lookup one_device.viulist ['v', 'i', 'r', 't', '0'] = Lookup.found 4096 ∧
      load one_device.viulist 4096 = some (virtif_user.mk [] [] (some ['v', 'i', 'r', 't', '0']) 7) ∧
      alloc_ok.succeeds = true) ∧
    snabbif_pull (VIFHYPER_SEND one_device 4096 segs_ab_cde alloc_ok) ['v', 'i', 'r', 't', '0']
        (PullOut.mk [] 0) =
      Res.ok one_device (1, PullOut.mk [97, 98, 99, 100, 101] 5) ∧
    snabbif_pull (VIFHYPER_SEND one_device 4096 [] alloc_ok) ['v', 'i', 'r', 't', '0']
        (PullOut.mk [1, 2] 2) =
      Res.ok one_device (1, PullOut.mk [] 0) :=
  ⟨⟨rfl, rfl, rfl⟩,
   (VIFHYPER_SEND_pull_frame one_device ['v', 'i', 'r', 't', '0'] 4096 _ segs_ab_cde alloc_ok
      (PullOut.mk [] 0) rfl rfl rfl rfl).2,
   (VIFHYPER_SEND_pull_frame one_device ['v', 'i', 'r', 't', '0'] 4096 _ [] alloc_ok
      (PullOut.mk [1, 2] 2) rfl rfl rfl rfl).2⟩

/-- C1: on a device whose outbound queue is empty, after any sequence of
`VIFHYPER_SEND` calls whose allocations succeed, as many `snabbif_pull` calls on
the device's name each return 1 and give, in the order of the sends, the bytes
and length of the frame sent; they leave the state as it was before the sends,
and one more pull returns 0, leaves the out-variables as they are and changes no
queue. -/
theorem send_pull_fifo (s : State) (devstr : List Char) (viu : Ptr) (v : virtif_user)
    (sends : List (List iovec × AllocEnv)) (out : PullOut)
    (hl : viu_lookup s.viulist devstr = Lookup.found viu)
    (hv : load s.viulist viu = some v)
    (hq : v.viu_pkt_out = [])
    (hok : ∀ e ∈ sends, e.2.succeeds = true) :
    ∃ out1,
      pull_n devstr sends.length (send_all s viu sends) out =
        Res.ok s (out1, sends.map (fun e =>
          (1, PullOut.mk (e.1.map iovec.iov_base).flatten (e.1.map iovec.iov_len).sum))) ∧
      snabbif_pull s devstr out1 = Res.ok s (0, out1) := by
  rw [send_all_succeeds sends s viu hok]
  have hl1 : viu_lookup (store s.viulist viu
      (fun v => set_pkt_out (v.viu_pkt_out ++ sends.map (fun e => frame_of e.1)) v)) devstr =
      Lookup.found viu :=
    (viu_lookup_store s.viulist viu
      (fun v => set_pkt_out (v.viu_pkt_out ++ sends.map (fun e => frame_of e.1)) v)
      (fun _ => rfl) devstr).trans hl
  have hv1 : load (store s.viulist viu
      (fun v => set_pkt_out (v.viu_pkt_out ++ sends.map (fun e => frame_of e.1)) v)) viu =
      some (set_pkt_out (sends.map (fun e => frame_of e.1)) v) := by
    rw [load_store, hv]
    simp [hq]
  obtain ⟨out1, h1⟩ := pull_n_frames devstr viu (sends.map (fun e => frame_of e.1)) [] _ out _
    hl1 hv1 (by simp [set_pkt_out])
  refine ⟨out1, ?_, snabbif_pull_nil s devstr out1 viu v hl hv hq⟩
  rw [List.length_map] at h1
  rw [h1]
  simp only [store_store, List.map_map]
  rw [store_eq_self]
  · rfl
  · intro w hw
    rw [hv] at hw
    cases hw
    simp only [set_pkt_out, ← hq]

/-- C1 on two sends (`"ab"`, `""`, `"cde"` and then the single segment `"ab"`)
followed by two pulls and a third one. -/
theorem send_pull_fifo_witness :
    (viu_lookup one_device.viulist ['v', 'i', 'r', 't', '0'] = Lookup.found 4096 ∧
      load one_device.viulist 4096 = some (virtif_user.mk [] [] (some ['v', 'i', 'r', 't', '0']) 7) ∧
      (∀ e ∈ [(segs_ab_cde, alloc_ok), ([iovec.mk [97, 98]], alloc_ok)],
        e.2.succeeds = true)) ∧
    ∃ out1,
      pull_n ['v', 'i', 'r', 't', '0'] 2
          (send_all one_device 4096 [(segs_ab_cde, alloc_ok), ([iovec.mk [97, 98]], alloc_ok)])
          (PullOut.mk [] 0) =
        Res.ok one_device (out1,
          [(1, PullOut.mk [97, 98, 99, 100, 101] 5), (1, PullOut.mk [97, 98] 2)]) ∧
      snabbif_pull one_device ['v', 'i', 'r', 't', '0'] out1 = Res.ok one_device (0, out1) :=
  ⟨⟨rfl, rfl, by simp [alloc_ok, AllocEnv.succeeds]⟩,
   send_pull_fifo one_device ['v', 'i', 'r', 't', '0'] 4096 _
     [(segs_ab_cde, alloc_ok), ([iovec.mk [97, 98]], alloc_ok)] (PullOut.mk [] 0) rfl rfl rfl
     (by simp [alloc_ok, AllocEnv.succeeds])⟩

/-! ## Inbound path: `snabbif_push` then the relay worker -/

theorem snabbif_push_succeeds (s : State) (devstr : List Char) (pktdata : List Byte)
    (env : AllocEnv) (viu : Ptr)
    (hl : viu_lookup s.viulist devstr = Lookup.found viu) (h : env.succeeds = true) :
    snabbif_push s devstr pktdata env =
      Res.ok (State.mk (store s.viulist viu
        (fun v => set_pkt_in (v.viu_pkt_in ++ [pktstore.mk pktdata pktdata.length]) v))) () := by
  obtain ⟨pkt, data⟩ := env
  cases pkt with
  | false => simp [AllocEnv.succeeds] at h
  | true =>
    cases data with
    | none => simp [AllocEnv.succeeds] at h
    | some junk => simp [snabbif_push, hl, push_frame_eq, set_pkt_in]

theorem push_all_succeeds (devstr : List Char) (viu : Ptr) (pushes : List (List Byte × AllocEnv))
    (s : State) (hl : viu_lookup s.viulist devstr = Lookup.found viu)
    (h : ∀ e ∈ pushes, e.2.succeeds = true) :
    push_all devstr s pushes =
      Res.ok (State.mk (store s.viulist viu (fun v => set_pkt_in
        (v.viu_pkt_in ++ pushes.map (fun e => pktstore.mk e.1 e.1.length)) v))) () := by
  induction pushes generalizing s with
  | nil =>
    simp only [push_all, List.map_nil, List.append_nil]
    rw [store_eq_self]
    intro v _
    rfl
  | cons e rest ih =>
    obtain ⟨pktdata, env⟩ := e
    have h1 : env.succeeds = true := h (pktdata, env) (List.mem_cons_self _ _)
    have h2 : ∀ e ∈ rest, e.2.succeeds = true := fun e he => h e (List.mem_cons_of_mem _ he)
    have hl1 : viu_lookup (store s.viulist viu
        (fun v => set_pkt_in (v.viu_pkt_in ++ [pktstore.mk pktdata pktdata.length]) v)) devstr =
        Lookup.found viu :=
      (viu_lookup_store s.viulist viu
        (fun v => set_pkt_in (v.viu_pkt_in ++ [pktstore.mk pktdata pktdata.length]) v)
        (fun _ => rfl) devstr).trans hl
    simp only [push_all]
    rw [snabbif_push_succeeds s devstr pktdata env viu hl h1]
    simp only []
    rw [ih _ hl1 h2]
    simp only [store_store, List.map_cons, set_pkt_in, List.append_assoc, List.singleton_append]

theorem rcvcontext_iter_cons (s : State) (viu : Ptr) (v : virtif_user) (pkt : pktstore)
    (rest : List pktstore) (hv : load s.viulist viu = some v) (hq : v.viu_pkt_in = pkt :: rest) :
    rcvcontext_iter s viu =
      some (State.mk (store s.viulist viu (set_pkt_in rest)),
        [Event.dequeue pkt, Event.schedule, Event.deliver v.viu_virtifsc [pkt] 1,
         Event.unschedule, Event.free_data pkt, Event.free_pkt pkt]) := by
  simp only [rcvcontext_iter, hv, hq]
  rfl

theorem rcvcontext_loop_frames (viu : Ptr) (frames rest : List pktstore) (s : State)
    (v : virtif_user) (hv : load s.viulist viu = some v) (hq : v.viu_pkt_in = frames ++ rest) :
    rcvcontext_loop frames.length s viu =
      (State.mk (store s.viulist viu (set_pkt_in rest)), worker_events v.viu_virtifsc frames) := by
  induction frames generalizing s v with
  | nil =>
    simp only [rcvcontext_loop, List.length_nil, worker_events]
    rw [store_eq_self]
    intro w hw
    rw [hv] at hw
    cases hw
    simp only [List.nil_append] at hq
    simp only [set_pkt_in, ← hq]
  | cons p fs ih =>
    have hiter := rcvcontext_iter_cons s viu v p (fs ++ rest) hv (by simpa using hq)
    have hv1 : load (store s.viulist viu (set_pkt_in (fs ++ rest))) viu =
        some (set_pkt_in (fs ++ rest) v) := by
      rw [load_store, hv]; rfl
    have h1 := ih (State.mk (store s.viulist viu (set_pkt_in (fs ++ rest)))) _ hv1 rfl
    simp only [rcvcontext_loop, List.length_cons, hiter, h1, store_store, worker_events]
    rfl

theorem deliveries_worker_events (sc : Nat) (frames : List pktstore) :
    deliveries (worker_events sc frames) = frames.map (fun p => (sc, [p], 1)) := by
  induction frames with
  | nil => rfl
  | cons p rest ih => simp [worker_events, deliveries, ih]

/-- C2: on a device whose inbound queue is empty, after any sequence of
`snabbif_push` calls on the device's name whose allocations succeed, as many
passes of the worker loop call `VIF_DELIVERPKT` once per pushed frame, in push
order, each time with the device's softc and a single segment holding the
pushed bytes and length, and leave the state as it was before the pushes (the
inbound queue is empty again). -/
theorem push_rcvcontext_fifo (s : State) (devstr : List Char) (viu : Ptr) (v : virtif_user)
    (pushes : List (List Byte × AllocEnv))
    (hl : viu_lookup s.viulist devstr = Lookup.found viu)
    (hv : load s.viulist viu = some v)
    (hq : v.viu_pkt_in = [])
    (hok : ∀ e ∈ pushes, e.2.succeeds = true) :
    ∃ s1, push_all devstr s pushes = Res.ok s1 () ∧
      (rcvcontext pushes.length s1 viu).1 = s ∧
      deliveries (rcvcontext pushes.length s1 viu).2 =
        pushes.map (fun e => (v.viu_virtifsc, [pktstore.mk e.1 e.1.length], 1)) ∧
      rcvcontext_iter s viu = none := by
  refine ⟨_, push_all_succeeds devstr viu pushes s hl hok, ?_⟩
  have hv1 : load (store s.viulist viu (fun v => set_pkt_in
      (v.viu_pkt_in ++ pushes.map (fun e => pktstore.mk e.1 e.1.length)) v)) viu =
      some (set_pkt_in (pushes.map (fun e => pktstore.mk e.1 e.1.length)) v) := by
    rw [load_store, hv]
    simp [hq]
  have hloop := rcvcontext_loop_frames viu (pushes.map (fun e => pktstore.mk e.1 e.1.length)) []
    _ _ hv1 (by simp [set_pkt_in])
  rw [List.length_map] at hloop
  simp only [rcvcontext, hloop, store_store]
  refine ⟨?_, ?_, ?_⟩
  · rw [store_eq_self]
    intro w hw
    rw [hv] at hw
    cases hw
    simp only [set_pkt_in, ← hq]
  · simp only [deliveries, deliveries_worker_events, List.map_map]
    rfl
  · simp only [rcvcontext_iter, hv, hq]

/-- C2 on two pushes (`"ab"` then `"cde"`) followed by two passes of the
worker. -/
theorem push_rcvcontext_fifo_witness :
    (viu_lookup one_device.viulist ['v', 'i', 'r', 't', '0'] = Lookup.found 4096 ∧
      load one_device.viulist 4096 = some (virtif_user.mk [] [] (some ['v', 'i', 'r', 't', '0']) 7) ∧
      (∀ e ∈ [(([97, 98] : List Byte), alloc_ok), ([99, 100, 101], alloc_ok)],
        e.2.succeeds = true)) ∧
    ∃ s1, push_all ['v', 'i', 'r', 't', '0'] one_device
        [([97, 98], alloc_ok), ([99, 100, 101], alloc_ok)] = Res.ok s1 () ∧
      (rcvcontext 2 s1 4096).1 = one_device ∧
      deliveries (rcvcontext 2 s1 4096).2 =
        [(7, [pktstore.mk [97, 98] 2], 1), (7, [pktstore.mk [99, 100, 101] 3], 1)] ∧
      rcvcontext_iter one_device 4096 = none :=
  ⟨⟨rfl, rfl, by simp [alloc_ok, AllocEnv.succeeds]⟩,
   push_rcvcontext_fifo one_device ['v', 'i', 'r', 't', '0'] 4096 _
     [([97, 98], alloc_ok), ([99, 100, 101], alloc_ok)] rfl rfl rfl
     (by simp [alloc_ok, AllocEnv.succeeds])⟩

/-! ## Order of the worker's steps -/

theorem VIFHYPER_SEND_fails (s : State) (viu : Ptr) (iov : List iovec) (env : AllocEnv)
    (h : env.succeeds = false) : VIFHYPER_SEND s viu iov env = s := by
  obtain ⟨pkt, pktdata⟩ := env
  cases pkt with
  | false => simp [VIFHYPER_SEND]
  | true =>
    cases pktdata with
    | none => simp [VIFHYPER_SEND]
    | some junk => simp [AllocEnv.succeeds] at h

theorem snabbif_push_fails (s : State) (devstr : List Char) (pktdata : List Byte)
    (env : AllocEnv) (viu : Ptr)
    (hl : viu_lookup s.viulist devstr = Lookup.found viu) (h : env.succeeds = false) :
    snabbif_push s devstr pktdata env = Res.ok s () := by
  obtain ⟨pkt, data⟩ := env
  cases pkt with
  | false => simp [snabbif_push, hl]
  | true =>
    cases data with
    | none => simp [snabbif_push, hl]
    | some junk => simp [AllocEnv.succeeds] at h

/-- C8: when one of the two allocations of a `VIFHYPER_SEND` or `snabbif_push`
call fails, the call returns normally and the state, hence every queue of every
device, is exactly what it was. Whatever the allocations do, the call either
changes nothing or appends the whole frame to the one queue concerned: no other
outcome exists. -/
theorem alloc_failure_drops (s : State) (viu dev : Ptr) (iov : List iovec)
    (devstr : List Char) (pktdata : List Byte) (env : AllocEnv)
    (hl : viu_lookup s.viulist devstr = Lookup.found dev)
    (hfail : env.succeeds = false) :
    VIFHYPER_SEND s viu iov env = s ∧
      snabbif_push s devstr pktdata env = Res.ok s () ∧
      (∀ env1 : AllocEnv, VIFHYPER_SEND s viu iov env1 = s ∨
        VIFHYPER_SEND s viu iov env1 = State.mk (store s.viulist viu
          (fun v => set_pkt_out (v.viu_pkt_out ++ [frame_of iov]) v))) ∧
      (∀ env1 : AllocEnv, snabbif_push s devstr pktdata env1 = Res.ok s () ∨
        snabbif_push s devstr pktdata env1 = Res.ok (State.mk (store s.viulist dev
          (fun v => set_pkt_in (v.viu_pkt_in ++ [pktstore.mk pktdata pktdata.length]) v))) ()) := by
  refine ⟨VIFHYPER_SEND_fails s viu iov env hfail,
    snabbif_push_fails s devstr pktdata env dev hl hfail, ?_, ?_⟩
  · intro env1
    cases h1 : env1.succeeds with
    | false => exact Or.inl (VIFHYPER_SEND_fails s viu iov env1 h1)
    | true => exact Or.inr (VIFHYPER_SEND_succeeds s viu iov env1 h1)
  · intro env1
    cases h1 : env1.succeeds with
    | false => exact Or.inl (snabbif_push_fails s devstr pktdata env1 dev hl h1)
    | true => exact Or.inr (snabbif_push_succeeds s devstr pktdata env1 dev hl h1)

/-- C8 on a registry of two devices, once with the queue-entry allocation
failing and once with the data allocation failing. -/
theorem alloc_failure_drops_witness :
    (viu_lookup two_devices.viulist ['v', 'i', 'r', 't', '0'] = Lookup.found 4096 ∧
      (AllocEnv.mk false none).succeeds = false ∧ alloc_nodata.succeeds = false) ∧
    (VIFHYPER_SEND two_devices 4096 segs_ab_cde (AllocEnv.mk false none) = two_devices ∧
      snabbif_push two_devices ['v', 'i', 'r', 't', '0'] [97, 98] (AllocEnv.mk false none) =
        Res.ok two_devices ()) ∧
    (VIFHYPER_SEND two_devices 4096 segs_ab_cde alloc_nodata = two_devices ∧
      snabbif_push two_devices ['v', 'i', 'r', 't', '0'] [97, 98] alloc_nodata =
        Res.ok two_devices ()) :=
  ⟨⟨rfl, rfl, rfl⟩,
   ⟨(alloc_failure_drops two_devices 4096 4096 segs_ab_cde ['v', 'i', 'r', 't', '0'] [97, 98]
      (AllocEnv.mk false none) rfl rfl).1,
    (alloc_failure_drops two_devices 4096 4096 segs_ab_cde ['v', 'i', 'r', 't', '0'] [97, 98]
      (AllocEnv.mk false none) rfl rfl).2.1⟩,
   ⟨(alloc_failure_drops two_devices 4096 4096 segs_ab_cde ['v', 'i', 'r', 't', '0'] [97, 98]
      alloc_nodata rfl rfl).1,
    (alloc_failure_drops two_devices 4096 4096 segs_ab_cde ['v', 'i', 'r', 't', '0'] [97, 98]
      alloc_nodata rfl rfl).2.1⟩⟩

theorem viu_lookup_cases (l : List (Ptr × virtif_user)) (devstr : List Char)
    (hnn : ∀ c ∈ l, c.2.viu_devstr ≠ none) :
    (viu_lookup l devstr = Lookup.notfound ∧ ∀ c ∈ l, c.2.viu_devstr ≠ some devstr) ∨
      (∃ a v, viu_lookup l devstr = Lookup.found a ∧ (a, v) ∈ l ∧ v.viu_devstr = some devstr) := by
  induction l with
  | nil => exact Or.inl ⟨rfl, fun c hc => by simp at hc⟩
  | cons c rest ih =>
    obtain ⟨b, w⟩ := c
    have hw : w.viu_devstr ≠ none := hnn (b, w) (List.mem_cons_self _ _)
    have hrest : ∀ c ∈ rest, c.2.viu_devstr ≠ none :=
      fun c hc => hnn c (List.mem_cons_of_mem _ hc)
    cases hd : w.viu_devstr with
    | none => exact absurd hd hw
    | some d =>
      by_cases hdd : devstr = d
      · refine Or.inr ⟨b, w, ?_, List.mem_cons_self _ _, ?_⟩
        · simp [viu_lookup, hd, hdd]
        · rw [hd, hdd]
      · rcases ih hrest with ⟨hnf, hall⟩ | ⟨a, v, hf, hmem, hv⟩
        · refine Or.inl ⟨?_, ?_⟩
          · simp [viu_lookup, hd, hdd, hnf]
          · intro c hc
            rcases List.mem_cons.mp hc with rfl | hc
            · simp only [hd, ne_eq, Option.some.injEq]
              exact fun h => hdd h.symm
            · exact hall c hc
        · refine Or.inr ⟨a, v, ?_, List.mem_cons_of_mem _ hmem, hv⟩
          simp [viu_lookup, hd, hdd, hf]

theorem load_of_mem (l : List (Ptr × virtif_user)) (a : Ptr) (v : virtif_user)
    (hnd : (l.map Prod.fst).Nodup) (hmem : (a, v) ∈ l) : load l a = some v := by
  induction l with
  | nil => simp at hmem
  | cons c rest ih =>
    obtain ⟨b, w⟩ := c
    simp only [List.map_cons, List.nodup_cons] at hnd
    rcases List.mem_cons.mp hmem with h | h
    · cases h
      simp [load]
    · have hne : b ≠ a := by
        intro hba
        apply hnd.1
        rw [hba]
        exact List.mem_map_of_mem Prod.fst h
      simp only [load, hne, if_false]
      exact ih hnd.2 h

/-- Lookup on a well-formed registry. In a registry whose contexts live at
distinct addresses and all have an identifier string, `snabbif_pull` and `snabbif_push` abort exactly when no
registered context has an identifier equal to the name, and the state at the
abort is the state before the call. When such a context exists they return
normally and read and write only the queues of the one context at the address
found, whose identifier equals the name: pull takes the head off its outbound
queue (or changes nothing when it is empty), push appends to its inbound queue
(or changes nothing when an allocation fails). -/
theorem lookup_abort_iff (s : State) (devstr : List Char) (out : PullOut)
    (pktdata : List Byte) (env : AllocEnv) (hwf : s.WellFormed) :
    (∀ s1, snabbif_pull s devstr out = Res.abort s1 ↔ (s1 = s ∧ ¬ registered s devstr)) ∧
      (∀ s1, snabbif_push s devstr pktdata env = Res.abort s1 ↔
        (s1 = s ∧ ¬ registered s devstr)) ∧
      (registered s devstr → ∃ viu v, load s.viulist viu = some v ∧
        v.viu_devstr = some devstr ∧
        (∀ c ∈ s.viulist, c.1 = viu → c.2 = v) ∧
        (∀ (b : Ptr) (f : virtif_user → virtif_user), b ≠ viu →
          load (store s.viulist viu f) b = load s.viulist b) ∧
        snabbif_pull s devstr out =
          (match v.viu_pkt_out with
           | [] => Res.ok s (0, out)
           | pkt :: rest => Res.ok (State.mk (store s.viulist viu (set_pkt_out rest)))
               (1, PullOut.mk pkt.iov_base pkt.iov_len)) ∧
        snabbif_push s devstr pktdata env =
          (if env.succeeds = true then
            Res.ok (State.mk (store s.viulist viu
              (fun w => set_pkt_in (w.viu_pkt_in ++ [pktstore.mk pktdata pktdata.length]) w))) ()
           else Res.ok s ())) := by
  obtain ⟨hnd, hnn⟩ := hwf
  rcases viu_lookup_cases s.viulist devstr hnn with ⟨hnf, hall⟩ | ⟨a, v, hf, hmem, hv⟩
  · have hnr : ¬ registered s devstr := by
      rintro ⟨c, hc, hcd⟩
      exact hall c hc hcd
    refine ⟨?_, ?_, fun h => absurd h hnr⟩
    · intro s1
      simp only [snabbif_pull, hnf, Res.abort.injEq]
      exact ⟨fun h => ⟨h.symm, hnr⟩, fun h => h.1.symm⟩
    · intro s1
      simp only [snabbif_push, hnf, Res.abort.injEq]
      exact ⟨fun h => ⟨h.symm, hnr⟩, fun h => h.1.symm⟩
  · have hr : registered s devstr := ⟨(a, v), hmem, hv⟩
    have hload : load s.viulist a = some v := load_of_mem s.viulist a v hnd hmem
    have hpush : snabbif_push s devstr pktdata env =
        (if env.succeeds = true then
          Res.ok (State.mk (store s.viulist a
            (fun w => set_pkt_in (w.viu_pkt_in ++ [pktstore.mk pktdata pktdata.length]) w))) ()
         else Res.ok s ()) := by
      cases hs : env.succeeds with
      | true =>
        rw [snabbif_push_succeeds s devstr pktdata env a hf hs]
        simp
      | false =>
        rw [snabbif_push_fails s devstr pktdata env a hf hs]
        simp
    have hpull : snabbif_pull s devstr out =
        (match v.viu_pkt_out with
         | [] => Res.ok s (0, out)
         | pkt :: rest => Res.ok (State.mk (store s.viulist a (set_pkt_out rest)))
             (1, PullOut.mk pkt.iov_base pkt.iov_len)) := by
      cases hq : v.viu_pkt_out with
      | nil => exact snabbif_pull_nil s devstr out a v hf hload hq
      | cons pkt rest => exact snabbif_pull_cons s devstr out a v pkt rest hf hload hq
    refine ⟨?_, ?_, fun _ => ⟨a, v, hload, hv, ?_,
      fun b f hb => load_store_ne s.viulist a b f hb, hpull, hpush⟩⟩
    · intro s1
      constructor
      · intro h
        rw [hpull] at h
        cases hq : v.viu_pkt_out <;> simp [hq] at h
      · intro h
        exact absurd hr h.2
    · intro s1
      constructor
      · intro h
        rw [hpush] at h
        cases hs : env.succeeds <;> simp [hs] at h
      · intro h
        exact absurd hr h.2
    · intro c hc hca
      obtain ⟨b, w⟩ := c
      simp only at hca
      subst hca
      have := load_of_mem s.viulist b w hnd hc
      rw [hload] at this
      cases this
      rfl

/-- Lookup on a registry of two devices: the name `virt0` is registered and the
calls work on the context at address 4096; the name `virt2` is not. -/
theorem lookup_abort_iff_witness :
    two_devices.WellFormed ∧
      snabbif_pull two_devices ['v', 'i', 'r', 't', '2'] (PullOut.mk [] 0) =
        Res.abort two_devices ∧
      snabbif_push two_devices ['v', 'i', 'r', 't', '2'] [97] alloc_ok = Res.abort two_devices ∧
      ((∀ s1, snabbif_pull two_devices ['v', 'i', 'r', 't', '0'] (PullOut.mk [] 0) = Res.abort s1 ↔
        (s1 = two_devices ∧ ¬ registered two_devices ['v', 'i', 'r', 't', '0']))) :=
  ⟨by decide, rfl, rfl,
   (lookup_abort_iff two_devices ['v', 'i', 'r', 't', '0'] (PullOut.mk [] 0) [97] alloc_ok
      (by decide)).1⟩

/-! ## Device creation -/

theorem ThreadStart.rv_ne_nametoolong (p : ThreadStart) : p.rv ≠ some Errno.ENAMETOOLONG := by
  cases p <;> simp [ThreadStart.rv]

/-- The four ways through `VIFHYPER_CREATE`. -/
theorem VIFHYPER_CREATE_cases (VIF_NAME : List Char) (s : State) (devstr : List Char)
    (vif_sc : Nat) (enaddr : List Byte) (env : CreateEnv) :
    (32 ≤ VIF_NAME.length + devstr.length ∧
        VIFHYPER_CREATE VIF_NAME s devstr vif_sc enaddr env =
          CreateResult.mk s none none (some Errno.ENAMETOOLONG)) ∨
      (VIF_NAME.length + devstr.length < 32 ∧ env.malloc = none ∧
        VIFHYPER_CREATE VIF_NAME s devstr vif_sc enaddr env =
          CreateResult.mk s none none (some Errno.ENOMEM)) ∨
      (VIF_NAME.length + devstr.length < 32 ∧ ∃ viu e, env.malloc = some viu ∧
        env.pthread_create.rv = some e ∧
        VIFHYPER_CREATE VIF_NAME s devstr vif_sc enaddr env =
          CreateResult.mk s (some viu) (some viu) (some e)) ∨
      (VIF_NAME.length + devstr.length < 32 ∧ ∃ viu, env.malloc = some viu ∧
        env.pthread_create.rv = none ∧
        VIFHYPER_CREATE VIF_NAME s devstr vif_sc enaddr env =
          CreateResult.mk
            (State.mk ((viu, virtif_user.mk [] []
              (if env.strdup = true then some (VIF_NAME ++ devstr) else none) vif_sc) ::
                s.viulist))
            (some viu) none none) := by
  by_cases hlen : 32 ≤ VIF_NAME.length + devstr.length
  · exact Or.inl ⟨hlen, by simp [VIFHYPER_CREATE, hlen, VIFHYPER_CREATE_out]⟩
  · have hlt : VIF_NAME.length + devstr.length < 32 := by omega
    cases hm : env.malloc with
    | none =>
      exact Or.inr (Or.inl ⟨hlt, rfl, by simp [VIFHYPER_CREATE, hlen, hm, VIFHYPER_CREATE_out]⟩)
    | some viu =>
      cases hp : env.pthread_create.rv with
      | some e =>
        exact Or.inr (Or.inr (Or.inl ⟨hlt, viu, e, rfl, rfl,
          by simp [VIFHYPER_CREATE, hlen, hm, hp, VIFHYPER_CREATE_out]⟩))
      | none =>
        exact Or.inr (Or.inr (Or.inr ⟨hlt, viu, rfl, rfl,
          by simp [VIFHYPER_CREATE, hlen, hm, hp, VIFHYPER_CREATE_out]⟩))

theorem VIFHYPER_CREATE_error (VIF_NAME : List Char) (s : State) (devstr : List Char)
    (vif_sc : Nat) (enaddr : List Byte) (env : CreateEnv)
    (h : (VIFHYPER_CREATE VIF_NAME s devstr vif_sc enaddr env).ret ≠ none) :
    (VIFHYPER_CREATE VIF_NAME s devstr vif_sc enaddr env).state = s := by
  rcases VIFHYPER_CREATE_cases VIF_NAME s devstr vif_sc enaddr env with
    ⟨_, heq⟩ | ⟨_, _, heq⟩ | ⟨_, viu, e, _, _, heq⟩ | ⟨_, viu, _, _, heq⟩
  · rw [heq]
  · rw [heq]
  · rw [heq]
  · rw [heq] at h
    exact absurd rfl h

theorem VIFHYPER_CREATE_success (VIF_NAME : List Char) (s : State) (devstr : List Char)
    (vif_sc : Nat) (enaddr : List Byte) (env : CreateEnv)
    (h : (VIFHYPER_CREATE VIF_NAME s devstr vif_sc enaddr env).ret = none) :
    ∃ viu, env.malloc = some viu ∧
      VIFHYPER_CREATE VIF_NAME s devstr vif_sc enaddr env =
        CreateResult.mk
          (State.mk ((viu, virtif_user.mk [] []
            (if env.strdup = true then some (VIF_NAME ++ devstr) else none) vif_sc) :: s.viulist))
          (some viu) none none := by
  rcases VIFHYPER_CREATE_cases VIF_NAME s devstr vif_sc enaddr env with
    ⟨_, heq⟩ | ⟨_, _, heq⟩ | ⟨_, viu, e, _, _, heq⟩ | ⟨_, viu, hm, _, heq⟩
  · rw [heq] at h; cases h
  · rw [heq] at h; cases h
  · rw [heq] at h; cases h
  · exact ⟨viu, hm, heq⟩

/-- C4: for every suffix, `VIFHYPER_CREATE` returns `ENAMETOOLONG` exactly when
the composed name (prefix followed by suffix) is longer than 31 characters, and
whenever it returns `ENAMETOOLONG` the registry is unchanged, the pointer stored
through `viup` is `NULL` and nothing was allocated. -/
theorem VIFHYPER_CREATE_nametoolong (VIF_NAME : List Char) (s : State) (devstr : List Char)
    (vif_sc : Nat) (enaddr : List Byte) (env : CreateEnv) :
    ((VIFHYPER_CREATE VIF_NAME s devstr vif_sc enaddr env).ret = some Errno.ENAMETOOLONG ↔
        31 < (VIF_NAME ++ devstr).length) ∧
      ((VIFHYPER_CREATE VIF_NAME s devstr vif_sc enaddr env).ret = some Errno.ENAMETOOLONG →
        (VIFHYPER_CREATE VIF_NAME s devstr vif_sc enaddr env).state = s ∧
        (VIFHYPER_CREATE VIF_NAME s devstr vif_sc enaddr env).viup = none ∧
        (VIFHYPER_CREATE VIF_NAME s devstr vif_sc enaddr env).freed = none) := by
  rw [List.length_append]
  rcases VIFHYPER_CREATE_cases VIF_NAME s devstr vif_sc enaddr env with
    ⟨hlen, heq⟩ | ⟨hlen, _, heq⟩ | ⟨hlen, viu, e, _, hp, heq⟩ | ⟨hlen, viu, _, _, heq⟩
  · rw [heq]
    exact ⟨⟨fun _ => by omega, fun _ => rfl⟩, fun _ => ⟨rfl, rfl, rfl⟩⟩
  · rw [heq]
    refine ⟨⟨fun h => ?_, fun h => ?_⟩, fun h => ?_⟩
    · simp at h
    · omega
    · simp at h
  · rw [heq]
    have hne : e ≠ Errno.ENAMETOOLONG := by
      intro he
      rw [he] at hp
      exact ThreadStart.rv_ne_nametoolong _ hp
    refine ⟨⟨fun h => ?_, fun h => ?_⟩, fun h => ?_⟩
    · simp only [Option.some.injEq] at h
      exact absurd h hne
    · omega
    · simp only [Option.some.injEq] at h
      exact absurd h hne
  · rw [heq]
    refine ⟨⟨fun h => ?_, fun h => ?_⟩, fun h => ?_⟩
    · simp at h
    · omega
    · simp at h

/-- C5, at the failing input: with prefix `"virt"`, suffix `"0"` and an empty
registry, when `malloc` and `pthread_create` succeed and `strdup` returns
`NULL`, `VIFHYPER_CREATE` returns 0 and the registry holds a context whose
identifier is `NULL` instead of `"virt0"`; a later lookup of `"virt0"` hands
that `NULL` to `strcmp`. -/
theorem VIFHYPER_CREATE_strdup_null :
    VIFHYPER_CREATE virt no_device ['0'] 7 [] create_nostrdup =
        CreateResult.mk (State.mk [(4096, virtif_user.mk [] [] none 7)]) (some 4096) none none ∧
      identifiers (VIFHYPER_CREATE virt no_device ['0'] 7 [] create_nostrdup).state = [none] ∧
      viu_lookup (VIFHYPER_CREATE virt no_device ['0'] 7 [] create_nostrdup).state.viulist
        ['v', 'i', 'r', 't', '0'] = Lookup.fault := by
  refine ⟨rfl, rfl, rfl⟩

/-- C6 fails as stated: two successful creations with the suffix `"0"` leave two
registered contexts with the identifier `"virt0"`. -/
theorem VIFHYPER_CREATE_duplicate :
    (VIFHYPER_CREATE virt no_device ['0'] 7 [] (create_ok 4096)).ret = none ∧
      (VIFHYPER_CREATE virt (VIFHYPER_CREATE virt no_device ['0'] 7 [] (create_ok 4096)).state
        ['0'] 9 [] (create_ok 8192)).ret = none ∧
      identifiers (VIFHYPER_CREATE virt
        (VIFHYPER_CREATE virt no_device ['0'] 7 [] (create_ok 4096)).state
        ['0'] 9 [] (create_ok 8192)).state =
        [some ['v', 'i', 'r', 't', '0'], some ['v', 'i', 'r', 't', '0']] ∧
      ¬ (identifiers (VIFHYPER_CREATE virt
        (VIFHYPER_CREATE virt no_device ['0'] 7 [] (create_ok 4096)).state
        ['0'] 9 [] (create_ok 8192)).state).Nodup := by
  refine ⟨rfl, rfl, rfl, ?_⟩
  decide

theorem ThreadStart.rv_eq_none_iff (p : ThreadStart) : p.rv = none ↔ p = ThreadStart.started := by
  cases p <;> simp [ThreadStart.rv]

/-- C6 as amended, for a `VIFHYPER_CREATE` call whose `strdup` succeeds:
registration is unconditional. The call succeeds exactly when the composed name
fits, `malloc` gives a block and the thread starts, whatever is registered
already; a successful call puts the new context, identified by the composed
name, at the head of the registry in front of everything that was there, and
`viu_lookup` of that name then finds the new context; a failed call leaves the
registry alone. After a successful call the identifiers are pairwise distinct
exactly when they were so before and the composed name was not registered
before. -/
theorem VIFHYPER_CREATE_identifiers (VIF_NAME : List Char) (s : State) (devstr : List Char)
    (vif_sc : Nat) (enaddr : List Byte) (env : CreateEnv)
    (hstr : env.strdup = true) :
    ((VIFHYPER_CREATE VIF_NAME s devstr vif_sc enaddr env).ret = none ↔
        (VIF_NAME.length + devstr.length < 32 ∧ env.malloc ≠ none ∧
          env.pthread_create = ThreadStart.started)) ∧
      ((VIFHYPER_CREATE VIF_NAME s devstr vif_sc enaddr env).ret = none →
        ∃ viu, (VIFHYPER_CREATE VIF_NAME s devstr vif_sc enaddr env).viup = some viu ∧
          (VIFHYPER_CREATE VIF_NAME s devstr vif_sc enaddr env).state.viulist =
            (viu, virtif_user.mk [] [] (some (VIF_NAME ++ devstr)) vif_sc) :: s.viulist ∧
          identifiers (VIFHYPER_CREATE VIF_NAME s devstr vif_sc enaddr env).state =
            some (VIF_NAME ++ devstr) :: identifiers s ∧
          viu_lookup (VIFHYPER_CREATE VIF_NAME s devstr vif_sc enaddr env).state.viulist
            (VIF_NAME ++ devstr) = Lookup.found viu ∧
          ((identifiers (VIFHYPER_CREATE VIF_NAME s devstr vif_sc enaddr env).state).Nodup ↔
            ((identifiers s).Nodup ∧ some (VIF_NAME ++ devstr) ∉ identifiers s))) ∧
      ((VIFHYPER_CREATE VIF_NAME s devstr vif_sc enaddr env).ret ≠ none →
        (VIFHYPER_CREATE VIF_NAME s devstr vif_sc enaddr env).state = s) := by
  refine ⟨?_, ?_, VIFHYPER_CREATE_error VIF_NAME s devstr vif_sc enaddr env⟩
  · rcases VIFHYPER_CREATE_cases VIF_NAME s devstr vif_sc enaddr env with
      ⟨hlen, heq⟩ | ⟨hlen, hm, heq⟩ | ⟨hlen, viu, e, hm, hp, heq⟩ | ⟨hlen, viu, hm, hp, heq⟩
    · rw [heq]
      constructor
      · intro h; cases h
      · intro h; omega
    · rw [heq]
      constructor
      · intro h; cases h
      · intro h; exact absurd hm h.2.1
    · rw [heq]
      constructor
      · intro h; cases h
      · intro h
        have := (ThreadStart.rv_eq_none_iff env.pthread_create).mpr h.2.2
        rw [hp] at this
        cases this
    · rw [heq]
      constructor
      · intro _
        refine ⟨hlen, ?_, (ThreadStart.rv_eq_none_iff env.pthread_create).mp hp⟩
        rw [hm]
        simp
      · intro _; rfl
  · intro h
    obtain ⟨viu, _, heq⟩ := VIFHYPER_CREATE_success VIF_NAME s devstr vif_sc enaddr env h
    rw [heq]
    simp only [hstr, if_true]
    refine ⟨viu, rfl, rfl, rfl, ?_, ?_⟩
    · simp [viu_lookup]
    · simp only [identifiers, List.map_cons, List.nodup_cons]
      exact ⟨fun hh => ⟨hh.2, hh.1⟩, fun hh => ⟨hh.2, hh.1⟩⟩

/-- C6 as amended, on creating `"virt0"` a second time next to a registered
`"virt0"`: the call succeeds, the new context is put in front of the old one and
the identifiers are no longer pairwise distinct. -/
theorem VIFHYPER_CREATE_identifiers_witness :
    (create_ok 8192).strdup = true ∧
      (VIFHYPER_CREATE virt one_device ['0'] 9 [] (create_ok 8192)).ret = none ∧
      (∃ viu, (VIFHYPER_CREATE virt one_device ['0'] 9 [] (create_ok 8192)).viup = some viu ∧
        (VIFHYPER_CREATE virt one_device ['0'] 9 [] (create_ok 8192)).state.viulist =
          (viu, virtif_user.mk [] [] (some (virt ++ ['0'])) 9) :: one_device.viulist ∧
        identifiers (VIFHYPER_CREATE virt one_device ['0'] 9 [] (create_ok 8192)).state =
          some (virt ++ ['0']) :: identifiers one_device ∧
        viu_lookup (VIFHYPER_CREATE virt one_device ['0'] 9 [] (create_ok 8192)).state.viulist
          (virt ++ ['0']) = Lookup.found viu ∧
        ((identifiers (VIFHYPER_CREATE virt one_device ['0'] 9 [] (create_ok 8192)).state).Nodup ↔
          ((identifiers one_device).Nodup ∧ some (virt ++ ['0']) ∉ identifiers one_device))) ∧
      ¬ (identifiers (VIFHYPER_CREATE virt one_device ['0'] 9 [] (create_ok 8192)).state).Nodup :=
  ⟨rfl,
   (VIFHYPER_CREATE_identifiers virt one_device ['0'] 9 [] (create_ok 8192) rfl).1.mpr
     ⟨by decide, by decide, rfl⟩,
   (VIFHYPER_CREATE_identifiers virt one_device ['0'] 9 [] (create_ok 8192) rfl).2.1 rfl,
   by decide⟩

/-- C7, at the failing input: after `"virt0"` was created and a second creation
(`"virt1"`) had its `strdup` return `NULL`, the registry holds a context with a
`NULL` identifier in front of `"virt0"`. There `snabbif_pull` and `snabbif_push`
on the registered name `"virt0"` neither abort nor reach the queues of that
context, and on the unregistered name `"virt2"` they do not abort either: in
both cases `viu_lookup` hands the `NULL` identifier to `strcmp` and the call
faults. -/
theorem lookup_null_identifier_fault :
    (VIFHYPER_CREATE virt no_device ['0'] 7 [] (create_ok 4096)).ret = none ∧
      (VIFHYPER_CREATE virt (VIFHYPER_CREATE virt no_device ['0'] 7 [] (create_ok 4096)).state
        ['1'] 9 [] (CreateEnv.mk (some 8192) ThreadStart.started false)).ret = none ∧
      after_strdup_null =
        State.mk [(8192, virtif_user.mk [] [] none 9),
                  (4096, virtif_user.mk [] [] (some ['v', 'i', 'r', 't', '0']) 7)] ∧
      registered after_strdup_null ['v', 'i', 'r', 't', '0'] ∧
      snabbif_pull after_strdup_null ['v', 'i', 'r', 't', '0'] (PullOut.mk [] 0) = Res.fault ∧
      snabbif_push after_strdup_null ['v', 'i', 'r', 't', '0'] [97, 98] alloc_ok = Res.fault ∧
      ¬ registered after_strdup_null ['v', 'i', 'r', 't', '2'] ∧
      snabbif_pull after_strdup_null ['v', 'i', 'r', 't', '2'] (PullOut.mk [] 0) = Res.fault ∧
      snabbif_push after_strdup_null ['v', 'i', 'r', 't', '2'] [97, 98] alloc_ok = Res.fault := by
  refine ⟨rfl, rfl, rfl, ?_, rfl, rfl, ?_, rfl, rfl⟩
  · decide
  · decide

/-- C10, at the failing input: with prefix `"virt"`, suffix `"0"` and an empty
registry, when `malloc` returns address 4096 and `pthread_create` returns
`EAGAIN`, `VIFHYPER_CREATE` returns `EAGAIN`, frees the context and still
stores its address, not `NULL`, through `viup`. `virtif_create` so leaves
`sc_viu` pointing at freed memory and `virtif_init` on that softc returns 0
with the interface marked running instead of `ENXIO`. -/
theorem VIFHYPER_CREATE_thread_failure_viup :
    VIFHYPER_CREATE virt no_device ['0'] 7 [] create_nothread =
        CreateResult.mk no_device (some 4096) (some 4096) (some Errno.EAGAIN) ∧
      virtif_create virt no_device 7 fresh_sc [] create_nothread =
        some (no_device, virtif_sc.mk (some 4096) 0 ['0'] false, some Errno.EAGAIN) ∧
      virtif_init (virtif_sc.mk (some 4096) 0 ['0'] false) =
        (virtif_sc.mk (some 4096) 0 ['0'] true, none) ∧
      virtif_init fresh_sc = (fresh_sc, some Errno.ENXIO) := by
  refine ⟨rfl, rfl, rfl, rfl⟩

end Snabbif
